import Mathlib

/-!
Verification development for the json-structgen schema-to-struct generator.

The embedding models the program's data flow: JSON documents (`JVal`) are
decoded into schema nodes (`JsonSchema`) by a destination-directed
unmarshal (`unmarshalInto`), nodes are resolved in place by `LoadRef`
(modelled functionally as `loadRefM`: ref substitution, properties
normalization, additionalProperties decoding via `SchemaFromInterface`,
extends merge), and resolved nodes are synthesized into Go type expression
strings by `GoType` (modelled as `goType`), which registers named composite
types in a registry threaded through the computation.  File reads are
abstracted as an environment mapping paths to parsed JSON documents, and
the recursion through that environment is bounded by explicit fuel;
running out of fuel is a distinct error (`Err.fuel`) that corresponds to
no program behavior.
-/

/-- Error kinds; each corresponds to a `panic` site of the program (plus
`fuel`, the out-of-fuel artifact of the bounded model). -/
inductive Err where
  | fuel
  | refNotFound
  | decodeError
  | assertFail
  | chainRef
  | schemaError
  | typeError
  | nilNode
  | unknownInterface
  deriving DecidableEq, Repr

/-- Parsed JSON values. `null` also stands for a missing map entry /
Go `nil` interface value. -/
inductive JVal where
  | null
  | jbool (b : Bool)
  | num (n : Int)
  | str (s : String)
  | arr (xs : List JVal)
  | obj (fs : List (String × JVal))

/-- Go map lookup over an association list (first match). -/
def lookupE {α : Type} : List (String × α) → String → Option α
  | [], _ => none
  | (k1, v1) :: rest, k => if k1 = k then some v1 else lookupE rest k

/-- Go map assignment: replace the entry in place, or append a new one. -/
def setEntry {α : Type} : List (String × α) → String → α → List (String × α)
  | [], k, v => [(k, v)]
  | (k1, v1) :: rest, k, v =>
    if k1 = k then (k1, v) :: rest else (k1, v1) :: setEntry rest k v

/-- The in-memory schema node (struct `JsonSchema` of the source).  Fields
mirror the Go struct: `schemaF` = `$schema`, `ref` = `$ref`, `typeJ` is the
untyped `Type interface{}` field, `addI` is `AdditionalInterface`
(json tag `additionalProperties`), `addProps` is the derived
`AdditionalProperties *JsonSchema` (json tag `-`).  Pointer fields are
`Option`; the `Properties` map is an association list whose entries may be
`none` (a nil `*JsonSchema` map element). -/
inductive JsonSchema where
  | mk (schemaF ref title : String) (typeJ : JVal) (descr : String)
       (extendsF : Option JsonSchema)
       (props : Option (List (String × Option JsonSchema)))
       (addI : JVal)
       (addProps : Option JsonSchema)
       (items : Option JsonSchema) : JsonSchema

abbrev PropMap := List (String × Option JsonSchema)

def JsonSchema.schemaF : JsonSchema → String
  | .mk sc _ _ _ _ _ _ _ _ _ => sc

def JsonSchema.ref : JsonSchema → String
  | .mk _ r _ _ _ _ _ _ _ _ => r

def JsonSchema.title : JsonSchema → String
  | .mk _ _ ti _ _ _ _ _ _ _ => ti

def JsonSchema.typeJ : JsonSchema → JVal
  | .mk _ _ _ ty _ _ _ _ _ _ => ty

def JsonSchema.descr : JsonSchema → String
  | .mk _ _ _ _ d _ _ _ _ _ => d

def JsonSchema.extendsF : JsonSchema → Option JsonSchema
  | .mk _ _ _ _ _ e _ _ _ _ => e

def JsonSchema.props : JsonSchema → Option PropMap
  | .mk _ _ _ _ _ _ p _ _ _ => p

def JsonSchema.addI : JsonSchema → JVal
  | .mk _ _ _ _ _ _ _ ai _ _ => ai

def JsonSchema.addProps : JsonSchema → Option JsonSchema
  | .mk _ _ _ _ _ _ _ _ ap _ => ap

def JsonSchema.items : JsonSchema → Option JsonSchema
  | .mk _ _ _ _ _ _ _ _ _ it => it

def JsonSchema.setSchemaF : JsonSchema → String → JsonSchema
  | .mk _ r ti ty d e p ai ap it, sc => .mk sc r ti ty d e p ai ap it

def JsonSchema.setRef : JsonSchema → String → JsonSchema
  | .mk sc _ ti ty d e p ai ap it, r => .mk sc r ti ty d e p ai ap it

def JsonSchema.setTitle : JsonSchema → String → JsonSchema
  | .mk sc r _ ty d e p ai ap it, ti => .mk sc r ti ty d e p ai ap it

def JsonSchema.setType : JsonSchema → JVal → JsonSchema
  | .mk sc r ti _ d e p ai ap it, ty => .mk sc r ti ty d e p ai ap it

def JsonSchema.setDescr : JsonSchema → String → JsonSchema
  | .mk sc r ti ty _ e p ai ap it, d => .mk sc r ti ty d e p ai ap it

def JsonSchema.setExtends : JsonSchema → Option JsonSchema → JsonSchema
  | .mk sc r ti ty d _ p ai ap it, e => .mk sc r ti ty d e p ai ap it

def JsonSchema.setProps : JsonSchema → Option PropMap → JsonSchema
  | .mk sc r ti ty d e _ ai ap it, p => .mk sc r ti ty d e p ai ap it

def JsonSchema.setAddI : JsonSchema → JVal → JsonSchema
  | .mk sc r ti ty d e p _ ap it, ai => .mk sc r ti ty d e p ai ap it

def JsonSchema.setAddProps : JsonSchema → Option JsonSchema → JsonSchema
  | .mk sc r ti ty d e p ai _ it, ap => .mk sc r ti ty d e p ai ap it

def JsonSchema.setItems : JsonSchema → Option JsonSchema → JsonSchema
  | .mk sc r ti ty d e p ai ap _, it => .mk sc r ti ty d e p ai ap it

/-- The zero value `JsonSchema{}` that `json.Unmarshal` decodes into. -/
def emptySchema : JsonSchema :=
  .mk "" "" "" .null "" none none .null none none

/-- The fresh node `&JsonSchema{Title: js.Title, Type: t[0]}` built by the
type-list branch of `GoType`: every other field is left at its zero value. -/
def freshNode (ti : String) (t : JVal) : JsonSchema :=
  .mk "" "" ti t "" none none .null none none

/-- The file system, abstracted: maps a path to the parsed JSON document
stored there (`none` = unreadable / missing file). -/
abbrev Env := String → Option JVal

def isNullJ : JVal → Bool
  | .null => true
  | _ => false

/-- Unmarshal one `properties` map element: a nil pointer for JSON null,
a freshly decoded node for an object, an error otherwise. -/
def decodePropElem (unm : JsonSchema → JVal → Except Err JsonSchema) (v : JVal) :
    Except Err (Option JsonSchema) :=
  match v with
  | .null => .ok none
  | .obj _ =>
    match unm emptySchema v with
    | .error e => .error e
    | .ok s => .ok (some s)
  | _ => .error .decodeError

/-- Unmarshal a JSON object into the `Properties` map: existing entries are
kept, entries for keys present in the document are freshly decoded and
stored (replacing same-key entries). -/
def unmProps (unm : JsonSchema → JVal → Except Err JsonSchema) :
    PropMap → List (String × JVal) → Except Err PropMap
  | acc, [] => .ok acc
  | acc, (k, v) :: rest =>
    match decodePropElem unm v with
    | .error e => .error e
    | .ok el => unmProps unm (setEntry acc k el) rest

/-- Unmarshal a single JSON object field into the schema struct.  JSON null
leaves the destination field unchanged; a value of the wrong shape is a
decode error; unknown keys are ignored.  For the pointer fields `extends`
and `items` an existing non-nil destination is decoded into (merged),
matching `encoding/json`. -/
def unmField (unm : JsonSchema → JVal → Except Err JsonSchema) (s : JsonSchema)
    (k : String) (v : JVal) : Except Err JsonSchema :=
  if k = "$schema" then
    match v with
    | .null => .ok s
    | .str x => .ok (s.setSchemaF x)
    | _ => .error .decodeError
  else if k = "$ref" then
    match v with
    | .null => .ok s
    | .str x => .ok (s.setRef x)
    | _ => .error .decodeError
  else if k = "title" then
    match v with
    | .null => .ok s
    | .str x => .ok (s.setTitle x)
    | _ => .error .decodeError
  else if k = "description" then
    match v with
    | .null => .ok s
    | .str x => .ok (s.setDescr x)
    | _ => .error .decodeError
  else if k = "type" then
    match v with
    | .null => .ok s
    | _ => .ok (s.setType v)
  else if k = "extends" then
    match v with
    | .null => .ok s
    | .obj _ =>
      match unm (match s.extendsF with | some e => e | none => emptySchema) v with
      | .error er => .error er
      | .ok e2 => .ok (s.setExtends (some e2))
    | _ => .error .decodeError
  else if k = "properties" then
    match v with
    | .null => .ok s
    | .obj pf =>
      match unmProps unm (s.props.getD []) pf with
      | .error e => .error e
      | .ok pm => .ok (s.setProps (some pm))
    | _ => .error .decodeError
  else if k = "additionalProperties" then
    match v with
    | .null => .ok s
    | _ => .ok (s.setAddI v)
  else if k = "items" then
    match v with
    | .null => .ok s
    | .obj _ =>
      match unm (match s.items with | some i => i | none => emptySchema) v with
      | .error er => .error er
      | .ok i2 => .ok (s.setItems (some i2))
    | _ => .error .decodeError
  else .ok s

/-- Fold `unmField` over the document's fields in order. -/
def unmFields (unm : JsonSchema → JVal → Except Err JsonSchema) :
    JsonSchema → List (String × JVal) → Except Err JsonSchema
  | s, [] => .ok s
  | s, (k, v) :: rest =>
    match unmField unm s k v with
    | .error e => .error e
    | .ok s1 => unmFields unm s1 rest

/-- `json.Unmarshal` of a parsed document into an existing schema node:
destination-directed, JSON null is a no-op, non-object documents do not
decode into the struct.  Fueled on document nesting depth. -/
def unmarshalInto : Nat → JsonSchema → JVal → Except Err JsonSchema
  | 0, _, _ => .error .fuel
  | fu+1, s, v =>
    match v with
    | .null => .ok s
    | .obj fs => unmFields (unmarshalInto fu) s fs
    | _ => .error .decodeError

/-- The file-level `LoadRef(ref, schema)` helper: read the referenced
document and unmarshal it into the node. -/
def fileLoad (fu : Nat) (env : Env) (path : String) (s : JsonSchema) :
    Except Err JsonSchema :=
  match env path with
  | none => .error .refNotFound
  | some doc => unmarshalInto fu s doc

/-- `in[k].(string)` with presence test: absent is fine, a present
non-string value is a failed type assertion. -/
def getStrField (fs : List (String × JVal)) (k : String) : Except Err (Option String) :=
  match lookupE fs k with
  | none => .ok none
  | some (.str s) => .ok (some s)
  | some _ => .error .assertFail

/-- The `properties` loop of `SchemaFromInterface`: build a fresh map whose
entries are `SchemaFromInterface` of each value (possibly nil). -/
def sfiProps (sfi : JVal → Except Err (Option JsonSchema)) :
    PropMap → List (String × JVal) → Except Err PropMap
  | acc, [] => .ok acc
  | acc, (k, v) :: rest =>
    match sfi v with
    | .error e => .error e
    | .ok el => sfiProps sfi (setEntry acc k el) rest

/-- The object case of `SchemaFromInterface`: build the node from the raw
map (note: `AdditionalInterface` is not copied from the map) and then run
`LoadRef` on it, returning the resolved node. -/
def sfiObj (sfi : JVal → Except Err (Option JsonSchema))
    (lref : JsonSchema → Except Err JsonSchema)
    (fs : List (String × JVal)) : Except Err (Option JsonSchema) :=
  match sfi ((lookupE fs "extends").getD .null) with
  | .error e => .error e
  | .ok ext =>
    match sfi ((lookupE fs "items").getD .null) with
    | .error e => .error e
    | .ok its =>
      match getStrField fs "$ref" with
      | .error e => .error e
      | .ok refv =>
        match getStrField fs "title" with
        | .error e => .error e
        | .ok titlev =>
          match getStrField fs "description" with
          | .error e => .error e
          | .ok descv =>
            match (match lookupE fs "properties" with
                   | none => Except.ok (none : Option PropMap)
                   | some (.obj pf) =>
                     match sfiProps sfi [] pf with
                     | .error e => .error e
                     | .ok pm => .ok (some pm)
                   | some _ => .error .assertFail) with
            | .error e => .error e
            | .ok propsv =>
              match lref (JsonSchema.mk "" (refv.getD "") (titlev.getD "")
                  ((lookupE fs "type").getD .null) (descv.getD "")
                  ext propsv .null none its) with
              | .error e => .error e
              | .ok out => .ok (some out)

/-- `SchemaFromInterface`: nil and booleans give no node, a map is decoded
into a node (and resolved), anything else is the "Unknown schema
interface" panic. -/
def sfiFueled : Nat → (JsonSchema → Except Err JsonSchema) → JVal →
    Except Err (Option JsonSchema)
  | 0, _, _ => .error .fuel
  | fu+1, lref, v =>
    match v with
    | .null => .ok none
    | .jbool _ => .ok none
    | .obj fs => sfiObj (sfiFueled fu lref) lref fs
    | _ => .error .unknownInterface

/-- One step of the extends-merge property loop: add the entry only when
its key is not already present. -/
def insertIfAbsent (l : PropMap) (kv : String × Option JsonSchema) : PropMap :=
  if (lookupE l kv.1).isSome then l else l ++ [kv]

/-- The extends-merge property loop over the extended node's map. -/
def mergeProps (l le : PropMap) : PropMap := le.foldl insertIfAbsent l

/-- `if js.Items == nil { js.Items = add.Items }` as a function: keep the
first operand when set, fall back to the second. -/
def optFirst {α : Type} (a b : Option α) : Option α :=
  match a with
  | none => b
  | some x => some x

/-- The `extends` merge of `LoadRef`: title, type, items are copied from
the resolved extended node only when unset on the receiver; property keys
are copied only when absent; the extends pointer now holds the resolved
node (in-place mutation in the source). -/
def mergeExtends (js e' : JsonSchema) : JsonSchema :=
  JsonSchema.mk js.schemaF js.ref
    (if js.title = "" then e'.title else js.title)
    (if isNullJ js.typeJ then e'.typeJ else js.typeJ)
    js.descr (some e')
    (some (mergeProps (js.props.getD []) (e'.props.getD [])))
    js.addI js.addProps
    (optFirst js.items e'.items)

/-- `if js.Properties == nil { js.Properties = make(map[string]*JsonSchema) }` -/
def normProps (js : JsonSchema) : JsonSchema :=
  match js.props with
  | none => js.setProps (some [])
  | some _ => js

/-- The `Extends` phase of `LoadRef`: resolve the extended node (if any)
and merge it in with first-wins precedence. -/
def resolveTail (lref : JsonSchema → Except Err JsonSchema) (js2 : JsonSchema) :
    Except Err JsonSchema :=
  match js2.extendsF with
  | none => .ok js2
  | some e =>
    match lref e with
    | .error er => .error er
    | .ok e' => .ok (mergeExtends js2 e')

/-- One pass of the method `(js *JsonSchema) LoadRef()`: consume a
non-empty ref by loading the referenced document over the node, fail if
the loaded document itself carries a ref, normalize `Properties`, derive
`AdditionalProperties` from `AdditionalInterface`, then resolve and merge
`Extends`. -/
def resolveStep (uf : Nat) (env : Env) (lref : JsonSchema → Except Err JsonSchema)
    (sfi : JVal → Except Err (Option JsonSchema)) (js : JsonSchema) :
    Except Err JsonSchema :=
  match (if js.ref = "" then Except.ok js else fileLoad uf env js.ref (js.setRef "")) with
  | .error e => .error e
  | .ok js0 =>
    if js0.ref = "" then
      match sfi (normProps js0).addI with
      | .error e => .error e
      | .ok ap => resolveTail lref ((normProps js0).setAddProps ap)
    else .error .chainRef

/-- The method `LoadRef` (node resolution), bounded by fuel. -/
def loadRefM : Nat → Env → JsonSchema → Except Err JsonSchema
  | 0, _, _ => .error .fuel
  | n+1, env, js =>
    resolveStep (n+1) env (loadRefM n env) (sfiFueled n (loadRefM n env)) js

/-- `strings.Split(s, " ")` on the character list. -/
def splitSpace : List Char → List (List Char)
  | [] => [[]]
  | c :: rest =>
    match splitSpace rest with
    | [] => [[]]
    | w :: ws => if c = ' ' then [] :: w :: ws else (c :: w) :: ws

/-- `strings.ToUpper(word[0:1]) + word[1:]` (ASCII, as the byte-level Go
code behaves on ASCII input); an empty word contributes nothing. -/
def capWord : List Char → List Char
  | [] => []
  | c :: cs => c.toUpper :: cs

/-- The `Capitalize` helper: capitalize the first letter of each
space-separated word and concatenate the words. -/
def Capitalize (s : String) : String :=
  String.mk (((splitSpace s.data).map capWord).foldr (· ++ ·) [])

/-- Lexicographic (bytewise, which for valid UTF-8 equals codepoint-wise)
comparison of character lists: the order `sort.Strings` sorts by. -/
def charLe : List Char → List Char → Bool
  | [], _ => true
  | _ :: _, [] => false
  | a :: as, b :: bs =>
    if a = b then charLe as bs else decide (a.toNat < b.toNat)

/-- The ascending string order of `sort.Strings`. -/
def leS (a b : String) : Prop := charLe a.data b.data = true

instance leSDec : DecidableRel leS := fun a b => Bool.decEq (charLe a.data b.data) true

/-- `sort.Strings`: ascending lexicographic sort. -/
def sortStrings (l : List String) : List String :=
  List.insertionSort leS l

/-- The process-wide type registry `GlobalTypes`, as an association list
written by Go map assignment (`setEntry`). -/
abbrev Reg := List (String × String)

/-- The field loop of the composite branch: for each property key (in the
given order) look the child up in the map, synthesize its type, and emit
`Capitalize(key) type `json:"key"`\n`.  A nil map element is the nil
pointer dereference panic of the source. -/
def structFields (gt : JsonSchema → Reg → Except Err (String × Reg)) (pl : PropMap) :
    List String → Reg → Except Err (String × Reg)
  | [], reg => .ok ("", reg)
  | k :: ks, reg =>
    match lookupE pl k with
    | none => .error .decodeError
    | some none => .error .nilNode
    | some (some c) =>
      match gt c reg with
      | .error e => .error e
      | .ok (t, reg1) =>
        match structFields gt pl ks reg1 with
        | .error e => .error e
        | .ok (rest, reg2) =>
          .ok (Capitalize k ++ " " ++ t ++ " `json:\"" ++ k ++ "\"`\n" ++ rest, reg2)

/-- The type dispatch of `GoType` on the resolved node: scalar keywords,
array, object (mapping / composite with registration), type lists, and the
unknown-type panics.  `gt` is the recursive synthesis for child nodes. -/
def goTypeDispatch (gt : JsonSchema → Bool → Reg → Except Err (String × Reg))
    (pre : String) (r : JsonSchema) (collapse : Bool) (reg : Reg) :
    Except Err (String × Reg) :=
  match r.typeJ with
  | .str t =>
    if t = "any" then .ok ("interface\x7b\x7d", reg)
    else if t = "boolean" then .ok ("bool", reg)
    else if t = "integer" then .ok ("int64", reg)
    else if t = "number" then .ok ("float64", reg)
    else if t = "string" then .ok ("string", reg)
    else if t = "array" then
      match r.items with
      | none => .error .schemaError
      | some i =>
        match gt i true reg with
        | .error e => .error e
        | .ok (ti, reg1) => .ok ("[]" ++ ti, reg1)
    else if t = "object" then
      match r.props.getD [] with
      | [] =>
        match r.addProps with
        | some ap =>
          match gt ap true reg with
          | .error e => .error e
          | .ok (ta, reg1) => .ok ("map[string]" ++ ta, reg1)
        | none => .ok ("interface\x7b\x7d", reg)
      | _ :: _ =>
        match structFields (fun c rg => gt c true rg) (r.props.getD [])
            (sortStrings ((r.props.getD []).map Prod.fst)) reg with
        | .error e => .error e
        | .ok (fields, reg1) =>
          let src := "struct \x7b\n" ++ fields ++ "\x7d"
          let name := Capitalize r.title
          if name = "" then .ok (src, reg1)
          else .ok (if collapse then pre ++ name else src, setEntry reg1 (pre ++ name) src)
    else .error .typeError
  | .arr ts =>
    match ts with
    | [t0] => gt (freshNode r.title t0) collapse reg
    | _ => .ok ("interface\x7b\x7d", reg)
  | _ => .error .typeError

/-- The method `(js *JsonSchema) GoType(collapse bool)`: resolve the node,
then dispatch on its type; `pre` is the configured struct-name prefix and
the registry is threaded through. -/
def goType : Nat → Env → String → JsonSchema → Bool → Reg → Except Err (String × Reg)
  | 0, _, _, _, _, _ => .error .fuel
  | n+1, env, pre, js, collapse, reg =>
    match loadRefM (n+1) env js with
    | .error e => .error e
    | .ok r => goTypeDispatch (goType n env pre) pre r collapse reg

/-- The final registry drain of `main`: emit `(name, body)` pairs in
ascending name order. -/
def drain (reg : Reg) : List (String × String) :=
  (sortStrings (reg.map Prod.fst)).map (fun nm => (nm, (lookupE reg nm).getD ""))

/-- The driver `main`, with argument handling and rendering abstracted:
load the root document into a zero node, synthesize it with
`collapse = true`, and drain the registry in sorted order.  The root's own
type expression is returned alongside (the source computes and discards
it). -/
def mainModel (fu : Nat) (env : Env) (path : String) (pre : String) :
    Except Err (String × List (String × String)) :=
  match fileLoad fu env path emptySchema with
  | .error e => .error e
  | .ok schema =>
    match goType fu env pre schema true [] with
    | .error e => .error e
    | .ok (rootExpr, reg) => .ok (rootExpr, drain reg)

/-- The empty file system. -/
def env0 : Env := fun _ => none

/-! Concrete schema nodes and environments used to instantiate the theorems. -/

/-- The node `{type: "string"}`. -/
def strS : JsonSchema := .mk "" "" "" (.str "string") "" none none .null none none

/-- The node `{type: "integer"}`. -/
def intS : JsonSchema := .mk "" "" "" (.str "integer") "" none none .null none none

/-- `{title: "Base", type: "object", properties: {a: {type: "integer"}}}`. -/
def baseN : JsonSchema :=
  .mk "" "" "Base" (.str "object") "" none (some [("a", some intS)]) .null none none

/-- A titleless node with property `b` that extends `baseN`. -/
def childN : JsonSchema :=
  .mk "" "" "" .null "" (some baseN) (some [("b", some strS)]) .null none none

/-- The resolved form of `childN`: title and type inherited, property `a`
added after the node's own `b`. -/
def childNres : JsonSchema :=
  .mk "" "" "Base" (.str "object") "" (some baseN)
    (some [("b", some strS), ("a", some intS)]) .null none none

/-- An object node with no properties and `additionalProperties: {type: "string"}`. -/
def mapNode : JsonSchema :=
  .mk "" "" "" (.str "object") "" none none (.obj [("type", .str "string")]) none none

/-- The node `SchemaFromInterface` builds (and resolves) for
`{type: "string"}` as an `additionalProperties` value. -/
def apRes : JsonSchema := .mk "" "" "" (.str "string") "" none (some []) .null none none

/-- The resolved form of `mapNode`. -/
def mapNodeRes : JsonSchema :=
  .mk "" "" "" (.str "object") "" none (some []) (.obj [("type", .str "string")])
    (some apRes) none

/-- A node carrying only `items: {type: "integer"}`, used as an extends base. -/
def arrBase : JsonSchema := .mk "" "" "" .null "" none none .null none (some intS)

/-- An `array` node whose `items` comes from `extends: arrBase`. -/
def arrExt : JsonSchema :=
  .mk "" "" "" (.str "array") "" (some arrBase) none .null none none

/-- The resolved form of `arrBase`. -/
def arrBaseRes : JsonSchema := .mk "" "" "" .null "" none (some []) .null none (some intS)

/-- The resolved form of `arrExt`: items inherited from the base. -/
def arrExtRes : JsonSchema :=
  .mk "" "" "" (.str "array") "" (some arrBaseRes) (some []) .null none (some intS)

/-- A file system with one document `b.json` = `{type: "string"}`. -/
def envB : Env := fun p => if p = "b.json" then some (.obj [("type", .str "string")]) else none

/-- A node that is just `{$ref: "b.json"}`. -/
def refNodeB : JsonSchema := .mk "" "b.json" "" .null "" none none .null none none

/-- The resolved form of `refNodeB`. -/
def refNodeBRes : JsonSchema := .mk "" "" "" (.str "string") "" none (some []) .null none none

/-- A file system where `a.json` redirects to `b.json` (a ref chain). -/
def envChain : Env := fun p =>
  if p = "a.json" then some (.obj [("$ref", .str "b.json")])
  else if p = "b.json" then some (.obj [("type", .str "string")]) else none

/-- A node that is just `{$ref: "a.json"}` in `envChain`. -/
def refNodeA : JsonSchema := .mk "" "a.json" "" .null "" none none .null none none

/-- The state of `refNodeA` right after `a.json` is unmarshalled over it:
it carries the document's own `$ref`. -/
def refNodeAmid : JsonSchema := .mk "" "b.json" "" .null "" none none .null none none

/-- `{title: "T", type: "object", properties: {x: {type: "string"}}}`. -/
def tNodeX : JsonSchema :=
  .mk "" "" "T" (.str "object") "" none (some [("x", some strS)]) .null none none

/-- `{title: "T", type: "object", properties: {y: {type: "integer"}}}` —
same synthesized name as `tNodeX`, different body. -/
def tNodeY : JsonSchema :=
  .mk "" "" "T" (.str "object") "" none (some [("y", some intS)]) .null none none

/-- A titleless root object whose properties `a` and `b` both synthesize
(and register) the name `JsonT` with different bodies. -/
def c1root : JsonSchema :=
  .mk "" "" "" (.str "object") "" none
    (some [("a", some tNodeX), ("b", some tNodeY)]) .null none none

/-- The document `{title: "Foo", type: "object", properties: {a: {type: "string"}}}`. -/
def fooDoc : JVal :=
  .obj [("title", .str "Foo"), ("type", .str "object"),
        ("properties", .obj [("a", .obj [("type", .str "string")])])]

/-- A file system with one root document `root.json` = `fooDoc`. -/
def env1 : Env := fun p => if p = "root.json" then some fooDoc else none

/-- The schema node `fooDoc` decodes to. -/
def fooSchema : JsonSchema :=
  .mk "" "" "Foo" (.str "object") "" none (some [("a", some strS)]) .null none none

/-- A titled object whose properties are listed in non-sorted order `b, a`. -/
def js4 : JsonSchema :=
  .mk "" "" "Foo" (.str "object") "" none
    (some [("b", some strS), ("a", some intS)]) .null none none

/-- `js4` with its property list permuted to `a, b`. -/
def js4' : JsonSchema :=
  .mk "" "" "Foo" (.str "object") "" none
    (some [("a", some intS), ("b", some strS)]) .null none none

/-- A node with type list `["object"]` and a property `a` — content the
type-list branch discards. -/
def c3schema : JsonSchema :=
  .mk "" "" "" (.arr [.str "object"]) "" none (some [("a", some strS)]) .null none none

/-- The same node with plain type `"object"` instead of the list. -/
def c3schemaB : JsonSchema :=
  .mk "" "" "" (.str "object") "" none (some [("a", some strS)]) .null none none

/-- An `array` node with no items. -/
def c9inner : JsonSchema := .mk "" "" "" (.str "array") "" none none .null none none

/-- An `array` node whose items is itself an `array` node with no items. -/
def c9node : JsonSchema :=
  .mk "" "" "" (.str "array") "" none none .null none (some c9inner)

/-- The resolved form of `c9node` (items present). -/
def c9res : JsonSchema :=
  .mk "" "" "" (.str "array") "" none (some []) .null none (some c9inner)

/-- An `array` node whose items is a titled object with a property. -/
def c10node : JsonSchema :=
  .mk "" "" "Outer" (.str "array") "" none none .null none (some tNodeX)

/-! Structural lemmas about the schema node and its field updates. -/

theorem JsonSchema.eta (s : JsonSchema) :
    JsonSchema.mk s.schemaF s.ref s.title s.typeJ s.descr s.extendsF s.props
      s.addI s.addProps s.items = s := by
  cases s <;> rfl

theorem setAddProps_ref (s : JsonSchema) (ap : Option JsonSchema) :
    (s.setAddProps ap).ref = s.ref := by cases s <;> rfl

theorem setAddProps_title (s : JsonSchema) (ap : Option JsonSchema) :
    (s.setAddProps ap).title = s.title := by cases s <;> rfl

theorem setAddProps_typeJ (s : JsonSchema) (ap : Option JsonSchema) :
    (s.setAddProps ap).typeJ = s.typeJ := by cases s <;> rfl

theorem setAddProps_descr (s : JsonSchema) (ap : Option JsonSchema) :
    (s.setAddProps ap).descr = s.descr := by cases s <;> rfl

theorem setAddProps_schemaF (s : JsonSchema) (ap : Option JsonSchema) :
    (s.setAddProps ap).schemaF = s.schemaF := by cases s <;> rfl

theorem setAddProps_extendsF (s : JsonSchema) (ap : Option JsonSchema) :
    (s.setAddProps ap).extendsF = s.extendsF := by cases s <;> rfl

theorem setAddProps_props (s : JsonSchema) (ap : Option JsonSchema) :
    (s.setAddProps ap).props = s.props := by cases s <;> rfl

theorem setAddProps_addI (s : JsonSchema) (ap : Option JsonSchema) :
    (s.setAddProps ap).addI = s.addI := by cases s <;> rfl

theorem setAddProps_addProps (s : JsonSchema) (ap : Option JsonSchema) :
    (s.setAddProps ap).addProps = ap := by cases s <;> rfl

theorem setAddProps_items (s : JsonSchema) (ap : Option JsonSchema) :
    (s.setAddProps ap).items = s.items := by cases s <;> rfl

theorem setAddProps_self (s : JsonSchema) (ap : Option JsonSchema) (h : s.addProps = ap) :
    s.setAddProps ap = s := by cases s <;> cases h <;> rfl

theorem setProps_ref (s : JsonSchema) (p : Option PropMap) :
    (s.setProps p).ref = s.ref := by cases s <;> rfl

theorem setProps_title (s : JsonSchema) (p : Option PropMap) :
    (s.setProps p).title = s.title := by cases s <;> rfl

theorem setProps_typeJ (s : JsonSchema) (p : Option PropMap) :
    (s.setProps p).typeJ = s.typeJ := by cases s <;> rfl

theorem setProps_extendsF (s : JsonSchema) (p : Option PropMap) :
    (s.setProps p).extendsF = s.extendsF := by cases s <;> rfl

theorem setProps_props (s : JsonSchema) (p : Option PropMap) :
    (s.setProps p).props = p := by cases s <;> rfl

theorem setProps_addI (s : JsonSchema) (p : Option PropMap) :
    (s.setProps p).addI = s.addI := by cases s <;> rfl

theorem setProps_addProps (s : JsonSchema) (p : Option PropMap) :
    (s.setProps p).addProps = s.addProps := by cases s <;> rfl

theorem setProps_items (s : JsonSchema) (p : Option PropMap) :
    (s.setProps p).items = s.items := by cases s <;> rfl

theorem normProps_ref (s : JsonSchema) : (normProps s).ref = s.ref := by
  unfold normProps; split <;> simp [setProps_ref]

theorem normProps_title (s : JsonSchema) : (normProps s).title = s.title := by
  unfold normProps; split <;> simp [setProps_title]

theorem normProps_typeJ (s : JsonSchema) : (normProps s).typeJ = s.typeJ := by
  unfold normProps; split <;> simp [setProps_typeJ]

theorem normProps_extendsF (s : JsonSchema) : (normProps s).extendsF = s.extendsF := by
  unfold normProps; split <;> simp [setProps_extendsF]

theorem normProps_addI (s : JsonSchema) : (normProps s).addI = s.addI := by
  unfold normProps; split <;> simp [setProps_addI]

theorem normProps_addProps (s : JsonSchema) : (normProps s).addProps = s.addProps := by
  unfold normProps; split <;> simp [setProps_addProps]

theorem normProps_items (s : JsonSchema) : (normProps s).items = s.items := by
  unfold normProps; split <;> simp [setProps_items]

theorem normProps_props_isSome (s : JsonSchema) : (normProps s).props.isSome := by
  unfold normProps
  split
  · simp [setProps_props]
  · next l heq => simp [heq]

theorem normProps_props_getD (s : JsonSchema) :
    (normProps s).props.getD [] = s.props.getD [] := by
  unfold normProps
  split
  · next heq => simp [setProps_props, heq]
  · rfl

theorem normProps_of_isSome (s : JsonSchema) (h : s.props.isSome) : normProps s = s := by
  unfold normProps
  split
  · next heq => rw [heq] at h; simp at h
  · rfl

/-! Lemmas about association-list lookup, Go map assignment, and the
extends property merge. -/

theorem lookupE_append_some {α : Type} {l1 : List (String × α)} {k : String} {v : α}
    (h : lookupE l1 k = some v) (l2 : List (String × α)) :
    lookupE (l1 ++ l2) k = some v := by
  induction l1 with
  | nil => simp [lookupE] at h
  | cons hd tl ih =>
    obtain ⟨k1, v1⟩ := hd
    by_cases hk : k1 = k
    · simp only [lookupE, if_pos hk] at h
      simp only [List.cons_append, lookupE, if_pos hk]
      exact h
    · simp only [lookupE, if_neg hk] at h
      simp only [List.cons_append, lookupE, if_neg hk]
      exact ih h

theorem lookupE_append_none {α : Type} {l1 : List (String × α)} {k : String}
    (h : lookupE l1 k = none) (l2 : List (String × α)) :
    lookupE (l1 ++ l2) k = lookupE l2 k := by
  induction l1 with
  | nil => rfl
  | cons hd tl ih =>
    obtain ⟨k1, v1⟩ := hd
    by_cases hk : k1 = k
    · simp [lookupE, if_pos hk] at h
    · simp only [lookupE, if_neg hk] at h
      simp only [List.cons_append, lookupE, if_neg hk]
      exact ih h

theorem lookupE_setEntry_self {α : Type} (l : List (String × α)) (k : String) (v : α) :
    lookupE (setEntry l k v) k = some v := by
  induction l with
  | nil => simp [setEntry, lookupE]
  | cons hd tl ih =>
    obtain ⟨k1, v1⟩ := hd
    by_cases hk : k1 = k
    · simp [setEntry, if_pos hk, lookupE]
    · simp only [setEntry, if_neg hk, lookupE]
      exact ih

theorem mergeProps_cons (l : PropMap) (kv : String × Option JsonSchema) (rest : PropMap) :
    mergeProps l (kv :: rest) = mergeProps (insertIfAbsent l kv) rest := rfl

theorem mergeProps_append_form : ∀ (le l : PropMap), ∃ suf, mergeProps l le = l ++ suf := by
  intro le
  induction le with
  | nil => intro l; exact ⟨[], by simp [mergeProps]⟩
  | cons kv rest ih =>
    intro l
    rw [mergeProps_cons]
    unfold insertIfAbsent
    by_cases hk : (lookupE l kv.1).isSome
    · rw [if_pos hk]
      exact ih l
    · rw [if_neg hk]
      obtain ⟨suf, hs⟩ := ih (l ++ [kv])
      exact ⟨[kv] ++ suf, by rw [hs, List.append_assoc]⟩

theorem lookupE_mergeProps_some {l : PropMap} {k : String} {v : Option JsonSchema}
    (h : lookupE l k = some v) (le : PropMap) :
    lookupE (mergeProps l le) k = some v := by
  obtain ⟨suf, hs⟩ := mergeProps_append_form le l
  rw [hs]
  exact lookupE_append_some h suf

theorem lookupE_mergeProps_isSome {l : PropMap} {k : String}
    (h : (lookupE l k).isSome) (le : PropMap) :
    (lookupE (mergeProps l le) k).isSome := by
  obtain ⟨v, hv⟩ := Option.isSome_iff_exists.mp h
  rw [lookupE_mergeProps_some hv le]
  rfl

theorem mergeProps_mem_isSome :
    ∀ (le l : PropMap) (kv : String × Option JsonSchema), kv ∈ le →
      (lookupE (mergeProps l le) kv.1).isSome := by
  intro le
  induction le with
  | nil => intro l kv h; simp at h
  | cons hd rest ih =>
    intro l kv h
    rw [mergeProps_cons]
    rcases List.mem_cons.mp h with h1 | h2
    · subst h1
      apply lookupE_mergeProps_isSome _ rest
      unfold insertIfAbsent
      by_cases hk : (lookupE l kv.1).isSome
      · rw [if_pos hk]; exact hk
      · rw [if_neg hk]
        rw [lookupE_append_none (Option.not_isSome_iff_eq_none.mp hk) [kv]]
        simp [lookupE]
    · exact ih (insertIfAbsent l hd) kv h2

theorem mergeProps_eq_self :
    ∀ (le l : PropMap), (∀ kv ∈ le, (lookupE l kv.1).isSome) → mergeProps l le = l := by
  intro le
  induction le with
  | nil => intro l _; rfl
  | cons hd rest ih =>
    intro l h
    rw [mergeProps_cons]
    have hhd : insertIfAbsent l hd = l := by
      unfold insertIfAbsent
      rw [if_pos (h hd (List.mem_cons_self hd rest))]
    rw [hhd]
    exact ih l (fun kv hkv => h kv (List.mem_cons_of_mem hd hkv))

theorem lookupE_mergeProps_absent {l le : PropMap} {k : String} {v : Option JsonSchema}
    (hl : lookupE l k = none) (hle : lookupE le k = some v) :
    lookupE (mergeProps l le) k = some v := by
  induction le generalizing l with
  | nil => simp [lookupE] at hle
  | cons hd rest ih =>
    obtain ⟨k1, v1⟩ := hd
    rw [mergeProps_cons]
    by_cases hk : k1 = k
    · subst hk
      simp only [lookupE, if_pos rfl] at hle
      cases hle
      have habs : insertIfAbsent l (k1, v) = l ++ [(k1, v)] := by
        unfold insertIfAbsent
        rw [if_neg (by simp [hl])]
      rw [habs]
      apply lookupE_mergeProps_some _ rest
      rw [lookupE_append_none hl [(k1, v)]]
      simp [lookupE]
    · simp only [lookupE, if_neg hk] at hle
      unfold insertIfAbsent
      by_cases hpres : (lookupE l (k1, v1).1).isSome
      · rw [if_pos hpres]
        exact ih hl hle
      · rw [if_neg hpres]
        have hl2 : lookupE (l ++ [(k1, v1)]) k = none := by
          rw [lookupE_append_none hl [(k1, v1)]]
          simp [lookupE, hk]
        exact ih hl2 hle

/-! The extends merge is idempotent (needed for resolution idempotence). -/

theorem strIfIdem (a b : String) :
    (if (if a = "" then b else a) = "" then b else (if a = "" then b else a)) =
      (if a = "" then b else a) := by
  by_cases h : a = ""
  · simp [h]
  · simp [h]

theorem jvalIfIdem (a b : JVal) :
    (if isNullJ (if isNullJ a then b else a) then b else (if isNullJ a then b else a)) =
      (if isNullJ a then b else a) := by
  by_cases h : isNullJ a
  · simp [h]
  · simp [h]

theorem optIdem {α : Type} (a b : Option α) :
    optFirst (optFirst a b) b = optFirst a b := by
  cases a
  · cases b
    · rfl
    · rfl
  · rfl

theorem mergeProps_self_right (l le : PropMap) :
    mergeProps (mergeProps l le) le = mergeProps l le :=
  mergeProps_eq_self le (mergeProps l le) (fun kv hkv => mergeProps_mem_isSome le l kv hkv)

theorem mergeExtends_schemaF (js e' : JsonSchema) : (mergeExtends js e').schemaF = js.schemaF := rfl

theorem mergeExtends_ref (js e' : JsonSchema) : (mergeExtends js e').ref = js.ref := rfl

theorem mergeExtends_title (js e' : JsonSchema) :
    (mergeExtends js e').title = (if js.title = "" then e'.title else js.title) := rfl

theorem mergeExtends_typeJ (js e' : JsonSchema) :
    (mergeExtends js e').typeJ = (if isNullJ js.typeJ then e'.typeJ else js.typeJ) := rfl

theorem mergeExtends_descr (js e' : JsonSchema) : (mergeExtends js e').descr = js.descr := rfl

theorem mergeExtends_extendsF (js e' : JsonSchema) : (mergeExtends js e').extendsF = some e' := rfl

theorem mergeExtends_props (js e' : JsonSchema) :
    (mergeExtends js e').props = some (mergeProps (js.props.getD []) (e'.props.getD [])) := rfl

theorem mergeExtends_addI (js e' : JsonSchema) : (mergeExtends js e').addI = js.addI := rfl

theorem mergeExtends_addProps (js e' : JsonSchema) : (mergeExtends js e').addProps = js.addProps := rfl

theorem mergeExtends_items (js e' : JsonSchema) :
    (mergeExtends js e').items = optFirst js.items e'.items := rfl

theorem mergeExtends_idem (js2 e' : JsonSchema) :
    mergeExtends (mergeExtends js2 e') e' = mergeExtends js2 e' := by
  show JsonSchema.mk _ _ _ _ _ _ _ _ _ _ = _
  rw [mergeExtends_schemaF, mergeExtends_ref, mergeExtends_title, mergeExtends_typeJ,
    mergeExtends_descr, mergeExtends_addI, mergeExtends_addProps, mergeExtends_items,
    mergeExtends_props]
  rw [strIfIdem, jvalIfIdem, optIdem]
  rw [Option.getD_some, mergeProps_self_right]
  exact rfl

/-! Anatomy of one successful resolution pass. -/

theorem resolveTail_none {lref : JsonSchema → Except Err JsonSchema} {js2 : JsonSchema}
    (h : js2.extendsF = none) : resolveTail lref js2 = .ok js2 := by
  unfold resolveTail
  rw [h]

theorem resolveTail_some {lref : JsonSchema → Except Err JsonSchema} {js2 e : JsonSchema}
    (h : js2.extendsF = some e) :
    resolveTail lref js2 =
      (match lref e with
       | .error er => .error er
       | .ok e' => .ok (mergeExtends js2 e')) := by
  unfold resolveTail
  rw [h]

theorem resolveTail_ok {lref : JsonSchema → Except Err JsonSchema} {js2 s' : JsonSchema}
    (h : resolveTail lref js2 = .ok s') :
    (js2.extendsF = none ∧ s' = js2) ∨
    (∃ e e', js2.extendsF = some e ∧ lref e = .ok e' ∧ s' = mergeExtends js2 e') := by
  unfold resolveTail at h
  split at h
  · next heq =>
    cases h
    exact Or.inl ⟨heq, rfl⟩
  · next e heq =>
    split at h
    · exact Except.noConfusion h
    · next e' heq2 =>
      cases h
      exact Or.inr ⟨e, e', heq, heq2, rfl⟩

theorem resolveStep_resolved (uf : Nat) (env : Env) (lref : JsonSchema → Except Err JsonSchema)
    (sfi : JVal → Except Err (Option JsonSchema)) (s : JsonSchema)
    (h1 : s.ref = "") (h2 : s.props.isSome) (h3 : sfi s.addI = .ok s.addProps) :
    resolveStep uf env lref sfi s = resolveTail lref s := by
  obtain ⟨l, hl⟩ := Option.isSome_iff_exists.mp h2
  cases s with
  | mk sc r ti ty d e p ai ap it =>
    simp only [JsonSchema.ref] at h1
    simp only [JsonSchema.props] at hl
    simp only [JsonSchema.addI, JsonSchema.addProps] at h3
    subst h1
    subst hl
    simp [resolveStep, normProps, h3, JsonSchema.ref, JsonSchema.props, JsonSchema.addI,
      JsonSchema.setAddProps]

theorem loadRefM_ok_anatomy {n : Nat} {env : Env} {js s' : JsonSchema}
    (h : loadRefM (n+1) env js = .ok s') :
    ∃ js0 ap,
      (if js.ref = "" then Except.ok js else fileLoad (n+1) env js.ref (js.setRef "")) = .ok js0 ∧
      js0.ref = "" ∧
      sfiFueled n (loadRefM n env) (normProps js0).addI = .ok ap ∧
      resolveTail (loadRefM n env) ((normProps js0).setAddProps ap) = .ok s' := by
  rw [show loadRefM (n+1) env js =
    resolveStep (n+1) env (loadRefM n env) (sfiFueled n (loadRefM n env)) js from rfl] at h
  unfold resolveStep at h
  split at h
  · exact Except.noConfusion h
  · next js0 heq =>
    split at h
    · next href =>
      split at h
      · exact Except.noConfusion h
      · next ap hsfi =>
        exact ⟨js0, ap, heq, href, hsfi, h⟩
    · exact Except.noConfusion h

theorem resolved_shape {n : Nat} {env : Env} {js s' : JsonSchema}
    (h : loadRefM n env js = .ok s') : s'.ref = "" ∧ s'.props.isSome := by
  cases n with
  | zero => simp [loadRefM] at h
  | succ n =>
    obtain ⟨js0, ap, heq, href, hsfi, htail⟩ := loadRefM_ok_anatomy h
    rcases resolveTail_ok htail with ⟨hext, rfl⟩ | ⟨e, e', hext, hres, rfl⟩
    · constructor
      · rw [setAddProps_ref, normProps_ref]
        exact href
      · rw [setAddProps_props]
        exact normProps_props_isSome js0
    · constructor
      · rw [mergeExtends_ref, setAddProps_ref, normProps_ref]
        exact href
      · rw [mergeExtends_props]
        rfl

theorem resolved_sfi {n : Nat} {env : Env} {js s' : JsonSchema}
    (h : loadRefM (n+1) env js = .ok s') :
    sfiFueled n (loadRefM n env) s'.addI = .ok s'.addProps := by
  obtain ⟨js0, ap, heq, href, hsfi, htail⟩ := loadRefM_ok_anatomy h
  rcases resolveTail_ok htail with ⟨hext, rfl⟩ | ⟨e, e', hext, hres, rfl⟩
  · rw [setAddProps_addI, setAddProps_addProps]
    exact hsfi
  · rw [mergeExtends_addI, mergeExtends_addProps, setAddProps_addI, setAddProps_addProps]
    exact hsfi

/-- C7: resolution is idempotent — in a fixed file environment, a node
that `loadRefM` successfully resolved is a fixed point: resolving it again
(with the same fuel) yields the same state with no further change. -/
theorem loadRef_idem : ∀ (n : Nat) (env : Env) (js s' : JsonSchema),
    loadRefM n env js = .ok s' → loadRefM n env s' = .ok s' := by
  intro n
  induction n with
  | zero =>
    intro env js s' h
    simp [loadRefM] at h
  | succ n ih =>
    intro env js s' h
    obtain ⟨js0, ap, heq, href, hsfi, htail⟩ := loadRefM_ok_anatomy h
    have hshape := resolved_shape h
    have hsfi' := resolved_sfi h
    rw [show loadRefM (n+1) env s' =
      resolveStep (n+1) env (loadRefM n env) (sfiFueled n (loadRefM n env)) s' from rfl]
    rw [resolveStep_resolved _ _ _ _ _ hshape.1 hshape.2 hsfi']
    rcases resolveTail_ok htail with ⟨hext, rfl⟩ | ⟨e, e', hext, hres, rfl⟩
    · exact resolveTail_none hext
    · rw [resolveTail_some (mergeExtends_extendsF _ _)]
      rw [ih env e e' hres]
      exact congrArg Except.ok (mergeExtends_idem _ _)

/-! Branch equations for the type dispatch of `GoType`. -/

theorem goType_resolved {n : Nat} {env : Env} {pre : String} {js : JsonSchema} {c : Bool}
    {reg : Reg} {r : JsonSchema} (h : loadRefM (n+1) env js = .ok r) :
    goType (n+1) env pre js c reg = goTypeDispatch (goType n env pre) pre r c reg := by
  rw [show goType (n+1) env pre js c reg =
    (match loadRefM (n+1) env js with
     | .error e => .error e
     | .ok r => goTypeDispatch (goType n env pre) pre r c reg) from rfl]
  rw [h]

theorem goType_err {n : Nat} {env : Env} {pre : String} {js : JsonSchema} {c : Bool}
    {reg : Reg} {er : Err} (h : loadRefM (n+1) env js = .error er) :
    goType (n+1) env pre js c reg = .error er := by
  rw [show goType (n+1) env pre js c reg =
    (match loadRefM (n+1) env js with
     | .error e => .error e
     | .ok r => goTypeDispatch (goType n env pre) pre r c reg) from rfl]
  rw [h]

theorem dispatch_any (gt : JsonSchema → Bool → Reg → Except Err (String × Reg)) (pre : String)
    (r : JsonSchema) (c : Bool) (reg : Reg) (ht : r.typeJ = .str "any") :
    goTypeDispatch gt pre r c reg = .ok ("interface\x7b\x7d", reg) := by
  unfold goTypeDispatch
  rw [ht]
  rfl

theorem dispatch_boolean (gt : JsonSchema → Bool → Reg → Except Err (String × Reg)) (pre : String)
    (r : JsonSchema) (c : Bool) (reg : Reg) (ht : r.typeJ = .str "boolean") :
    goTypeDispatch gt pre r c reg = .ok ("bool", reg) := by
  unfold goTypeDispatch
  rw [ht]
  rfl

theorem dispatch_integer (gt : JsonSchema → Bool → Reg → Except Err (String × Reg)) (pre : String)
    (r : JsonSchema) (c : Bool) (reg : Reg) (ht : r.typeJ = .str "integer") :
    goTypeDispatch gt pre r c reg = .ok ("int64", reg) := by
  unfold goTypeDispatch
  rw [ht]
  rfl

theorem dispatch_number (gt : JsonSchema → Bool → Reg → Except Err (String × Reg)) (pre : String)
    (r : JsonSchema) (c : Bool) (reg : Reg) (ht : r.typeJ = .str "number") :
    goTypeDispatch gt pre r c reg = .ok ("float64", reg) := by
  unfold goTypeDispatch
  rw [ht]
  rfl

theorem dispatch_string (gt : JsonSchema → Bool → Reg → Except Err (String × Reg)) (pre : String)
    (r : JsonSchema) (c : Bool) (reg : Reg) (ht : r.typeJ = .str "string") :
    goTypeDispatch gt pre r c reg = .ok ("string", reg) := by
  unfold goTypeDispatch
  rw [ht]
  rfl

theorem dispatch_array_none (gt : JsonSchema → Bool → Reg → Except Err (String × Reg))
    (pre : String) (r : JsonSchema) (c : Bool) (reg : Reg)
    (ht : r.typeJ = .str "array") (hi : r.items = none) :
    goTypeDispatch gt pre r c reg = .error .schemaError := by
  unfold goTypeDispatch
  rw [ht, hi]
  rfl

theorem dispatch_array_some (gt : JsonSchema → Bool → Reg → Except Err (String × Reg))
    (pre : String) (r : JsonSchema) (c : Bool) (reg : Reg) (i : JsonSchema)
    (ht : r.typeJ = .str "array") (hi : r.items = some i) :
    goTypeDispatch gt pre r c reg =
      (match gt i true reg with
       | .error e => .error e
       | .ok (ti, reg1) => .ok ("[]" ++ ti, reg1)) := by
  unfold goTypeDispatch
  rw [ht, hi]
  rfl

theorem dispatch_obj_empty_some (gt : JsonSchema → Bool → Reg → Except Err (String × Reg))
    (pre : String) (r : JsonSchema) (c : Bool) (reg : Reg) (ap : JsonSchema)
    (ht : r.typeJ = .str "object") (hp : r.props.getD [] = [])
    (ha : r.addProps = some ap) :
    goTypeDispatch gt pre r c reg =
      (match gt ap true reg with
       | .error e => .error e
       | .ok (ta, reg1) => .ok ("map[string]" ++ ta, reg1)) := by
  unfold goTypeDispatch
  rw [ht, hp, ha]
  rfl

theorem dispatch_obj_empty_none (gt : JsonSchema → Bool → Reg → Except Err (String × Reg))
    (pre : String) (r : JsonSchema) (c : Bool) (reg : Reg)
    (ht : r.typeJ = .str "object") (hp : r.props.getD [] = [])
    (ha : r.addProps = none) :
    goTypeDispatch gt pre r c reg = .ok ("interface\x7b\x7d", reg) := by
  unfold goTypeDispatch
  rw [ht, hp, ha]
  rfl

theorem dispatch_obj_struct (gt : JsonSchema → Bool → Reg → Except Err (String × Reg))
    (pre : String) (r : JsonSchema) (c : Bool) (reg : Reg) (p0 : String × Option JsonSchema)
    (pl0 : PropMap) (ht : r.typeJ = .str "object") (hp : r.props.getD [] = p0 :: pl0) :
    goTypeDispatch gt pre r c reg =
      (match structFields (fun ch rg => gt ch true rg) (p0 :: pl0)
          (sortStrings ((p0 :: pl0).map Prod.fst)) reg with
       | .error e => .error e
       | .ok (fields, reg1) =>
         if Capitalize r.title = "" then .ok ("struct \x7b\n" ++ fields ++ "\x7d", reg1)
         else
           .ok (if c then pre ++ Capitalize r.title else "struct \x7b\n" ++ fields ++ "\x7d",
             setEntry reg1 (pre ++ Capitalize r.title) ("struct \x7b\n" ++ fields ++ "\x7d"))) := by
  unfold goTypeDispatch
  rw [ht, hp]
  rfl

theorem dispatch_list_one (gt : JsonSchema → Bool → Reg → Except Err (String × Reg))
    (pre : String) (r : JsonSchema) (c : Bool) (reg : Reg) (t0 : JVal)
    (ht : r.typeJ = .arr [t0]) :
    goTypeDispatch gt pre r c reg = gt (freshNode r.title t0) c reg := by
  unfold goTypeDispatch
  rw [ht]

theorem dispatch_list_ne (gt : JsonSchema → Bool → Reg → Except Err (String × Reg))
    (pre : String) (r : JsonSchema) (c : Bool) (reg : Reg) (ts : List JVal)
    (ht : r.typeJ = .arr ts) (hne : ts.length ≠ 1) :
    goTypeDispatch gt pre r c reg = .ok ("interface\x7b\x7d", reg) := by
  unfold goTypeDispatch
  rw [ht]
  cases ts with
  | nil => rfl
  | cons a tl =>
    cases tl with
    | nil => exact absurd rfl hne
    | cons b tl2 => rfl

theorem dispatch_null (gt : JsonSchema → Bool → Reg → Except Err (String × Reg)) (pre : String)
    (r : JsonSchema) (c : Bool) (reg : Reg) (ht : r.typeJ = .null) :
    goTypeDispatch gt pre r c reg = .error .typeError := by
  unfold goTypeDispatch
  rw [ht]

theorem dispatch_jbool (gt : JsonSchema → Bool → Reg → Except Err (String × Reg)) (pre : String)
    (r : JsonSchema) (c : Bool) (reg : Reg) (b : Bool) (ht : r.typeJ = .jbool b) :
    goTypeDispatch gt pre r c reg = .error .typeError := by
  unfold goTypeDispatch
  rw [ht]

theorem dispatch_num (gt : JsonSchema → Bool → Reg → Except Err (String × Reg)) (pre : String)
    (r : JsonSchema) (c : Bool) (reg : Reg) (q : Int) (ht : r.typeJ = .num q) :
    goTypeDispatch gt pre r c reg = .error .typeError := by
  unfold goTypeDispatch
  rw [ht]

theorem dispatch_objTy (gt : JsonSchema → Bool → Reg → Except Err (String × Reg)) (pre : String)
    (r : JsonSchema) (c : Bool) (reg : Reg) (fs : List (String × JVal))
    (ht : r.typeJ = .obj fs) :
    goTypeDispatch gt pre r c reg = .error .typeError := by
  unfold goTypeDispatch
  rw [ht]

theorem dispatch_str_unknown (gt : JsonSchema → Bool → Reg → Except Err (String × Reg))
    (pre : String) (r : JsonSchema) (c : Bool) (reg : Reg) (t : String)
    (ht : r.typeJ = .str t) (h1 : t ≠ "any") (h2 : t ≠ "boolean") (h3 : t ≠ "integer")
    (h4 : t ≠ "number") (h5 : t ≠ "string") (h6 : t ≠ "array") (h7 : t ≠ "object") :
    goTypeDispatch gt pre r c reg = .error .typeError := by
  unfold goTypeDispatch
  rw [ht]
  simp only [if_neg h1, if_neg h2, if_neg h3, if_neg h4, if_neg h5, if_neg h6, if_neg h7]

theorem okPair_reg {s u : String} {rg reg : Reg}
    (h : (Except.ok (u, reg) : Except Err (String × Reg)) = .ok (s, rg)) : rg = reg := by
  cases h
  rfl

/-! The sort used for field order and registry emission: `leS` is a
decidable linear order on strings. -/

theorem charLe_total : ∀ as bs : List Char, charLe as bs = true ∨ charLe bs as = true := by
  intro as
  induction as with
  | nil => intro bs; exact Or.inl rfl
  | cons a as ih =>
    intro bs
    cases bs with
    | nil => exact Or.inr rfl
    | cons b bs =>
      by_cases hab : a = b
      · subst hab
        simp only [charLe, if_pos rfl]
        exact ih bs
      · have hne : a.toNat ≠ b.toNat := fun h => hab (by
          have h2 := congrArg Char.ofNat h
          rwa [Char.ofNat_toNat, Char.ofNat_toNat] at h2)
        simp only [charLe, if_neg hab, if_neg (Ne.symm hab)]
        rcases Nat.lt_or_ge a.toNat b.toNat with h | h
        · left
          simpa using h
        · right
          simpa using Nat.lt_of_le_of_ne h (Ne.symm hne)

theorem charLe_trans : ∀ as bs cs : List Char,
    charLe as bs = true → charLe bs cs = true → charLe as cs = true := by
  intro as
  induction as with
  | nil => intro bs cs _ _; rfl
  | cons a as ih =>
    intro bs cs h1 h2
    cases bs with
    | nil => simp [charLe] at h1
    | cons b bs =>
      cases cs with
      | nil => simp [charLe] at h2
      | cons c cs =>
        by_cases hab : a = b
        · subst hab
          simp only [charLe, if_pos rfl] at h1
          by_cases hbc : a = c
          · subst hbc
            simp only [charLe, if_pos rfl] at h2 ⊢
            exact ih bs cs h1 h2
          · simp only [charLe, if_neg hbc] at h2 ⊢
            exact h2
        · simp only [charLe, if_neg hab] at h1
          have hlt1 : a.toNat < b.toNat := by simpa using h1
          by_cases hbc : b = c
          · subst hbc
            simp only [charLe, if_neg hab]
            simpa using hlt1
          · simp only [charLe, if_neg hbc] at h2
            have hlt2 : b.toNat < c.toNat := by simpa using h2
            have hac : a ≠ c := fun he =>
              absurd (hlt1.trans hlt2) (by rw [he]; exact lt_irrefl _)
            simp only [charLe, if_neg hac]
            simpa using hlt1.trans hlt2

theorem charLe_antisymm : ∀ as bs : List Char,
    charLe as bs = true → charLe bs as = true → as = bs := by
  intro as
  induction as with
  | nil =>
    intro bs h1 h2
    cases bs with
    | nil => rfl
    | cons b bs => simp [charLe] at h2
  | cons a as ih =>
    intro bs h1 h2
    cases bs with
    | nil => simp [charLe] at h1
    | cons b bs =>
      by_cases hab : a = b
      · subst hab
        simp only [charLe, if_pos rfl] at h1 h2
        rw [ih bs h1 h2]
      · simp only [charLe, if_neg hab, if_neg (Ne.symm hab)] at h1 h2
        have l1 : a.toNat < b.toNat := by simpa using h1
        have l2 : b.toNat < a.toNat := by simpa using h2
        exact absurd (l1.trans l2) (lt_irrefl _)

theorem leS_total (a b : String) : leS a b ∨ leS b a := charLe_total a.data b.data

theorem leS_trans {a b c : String} (h1 : leS a b) (h2 : leS b c) : leS a c :=
  charLe_trans a.data b.data c.data h1 h2

theorem leS_antisymm {a b : String} (h1 : leS a b) (h2 : leS b a) : a = b := by
  have h := charLe_antisymm a.data b.data h1 h2
  cases a
  cases b
  exact congrArg String.mk h

theorem sortStrings_sorted (l : List String) : List.Sorted leS (sortStrings l) :=
  @List.sorted_insertionSort String leS leSDec ⟨leS_total⟩
    ⟨fun _ _ _ h1 h2 => leS_trans h1 h2⟩ l

theorem sortStrings_perm (l : List String) : (sortStrings l).Perm l :=
  List.perm_insertionSort _ l

theorem sortStrings_eq_of_perm {l l' : List String} (h : l.Perm l') :
    sortStrings l = sortStrings l' :=
  @List.eq_of_perm_of_sorted String leS ⟨fun _ _ h1 h2 => leS_antisymm h1 h2⟩ _ _
    ((sortStrings_perm l).trans (h.trans (sortStrings_perm l').symm))
    (sortStrings_sorted l) (sortStrings_sorted l')

theorem drain_names_sorted (rg : Reg) : List.Sorted leS ((drain rg).map Prod.fst) := by
  have h : (drain rg).map Prod.fst = sortStrings (rg.map Prod.fst) := by
    unfold drain
    rw [List.map_map]
    have h2 : (Prod.fst ∘ fun nm => (nm, (lookupE rg nm).getD "")) = id := funext (fun _ => rfl)
    rw [h2, List.map_id]
  rw [h]
  exact sortStrings_sorted _

theorem lookupE_perm {α : Type} {l l' : List (String × α)} (hp : l.Perm l')
    (hnd : (l.map Prod.fst).Nodup) (k : String) : lookupE l k = lookupE l' k := by
  induction hp with
  | nil => rfl
  | cons x h ih =>
    obtain ⟨k1, v1⟩ := x
    simp only [lookupE]
    by_cases hk : k1 = k
    · rw [if_pos hk, if_pos hk]
    · rw [if_neg hk, if_neg hk]
      refine ih ?_
      simp only [List.map_cons, List.nodup_cons] at hnd
      exact hnd.2
  | swap x y l =>
    obtain ⟨k1, v1⟩ := x
    obtain ⟨k2, v2⟩ := y
    have hne : k2 ≠ k1 := by
      simp only [List.map_cons, List.nodup_cons, List.mem_cons] at hnd
      exact fun hcontra => hnd.1 (Or.inl hcontra)
    simp only [lookupE]
    by_cases hk1 : k1 = k
    · have hk2 : ¬ k2 = k := fun hc => hne (hc.trans hk1.symm)
      simp [hk1, hk2]
    · by_cases hk2 : k2 = k
      · simp [hk1, hk2]
      · simp [hk1, hk2]
  | trans h1 h2 ih1 ih2 =>
    refine (ih1 hnd).trans (ih2 ?_)
    exact ((h1.map Prod.fst).nodup_iff).mp hnd

theorem structFields_congr (gt : JsonSchema → Reg → Except Err (String × Reg)) {pl pl' : PropMap}
    (hl : ∀ k, lookupE pl k = lookupE pl' k) :
    ∀ (ks : List String) (reg : Reg), structFields gt pl ks reg = structFields gt pl' ks reg := by
  intro ks
  induction ks with
  | nil => intro reg; rfl
  | cons k ks ih =>
    intro reg
    simp only [structFields]
    rw [hl k]
    simp only [ih]

/-! The fresh node of the type-list branch never writes the registry. -/

theorem loadRefM_fresh (n : Nat) (env : Env) (ti : String) (t : JVal) :
    loadRefM (n+2) env (freshNode ti t) =
      .ok (JsonSchema.mk "" "" ti t "" none (some []) .null none none) := rfl

theorem goType_fresh_reg : ∀ (n : Nat) (env : Env) (pre ti : String) (t : JVal) (c : Bool)
    (reg : Reg) (s : String) (rg : Reg),
    goType n env pre (freshNode ti t) c reg = .ok (s, rg) → rg = reg := by
  intro n
  induction n with
  | zero =>
    intro env pre ti t c reg s rg h
    simp [goType] at h
  | succ n ih =>
    intro env pre ti t c reg s rg h
    cases n with
    | zero =>
      rw [show goType 1 env pre (freshNode ti t) c reg = Except.error Err.fuel from rfl] at h
      exact Except.noConfusion h
    | succ m =>
      rw [goType_resolved (loadRefM_fresh m env ti t)] at h
      have hty : (JsonSchema.mk "" "" ti t "" none (some []) JVal.null none none).typeJ = t := rfl
      cases t with
      | null =>
        rw [dispatch_null _ _ _ _ _ hty] at h
        exact Except.noConfusion h
      | jbool b =>
        rw [dispatch_jbool _ _ _ _ _ _ hty] at h
        exact Except.noConfusion h
      | num q =>
        rw [dispatch_num _ _ _ _ _ _ hty] at h
        exact Except.noConfusion h
      | obj fs =>
        rw [dispatch_objTy _ _ _ _ _ _ hty] at h
        exact Except.noConfusion h
      | arr ts =>
        cases ts with
        | nil =>
          rw [dispatch_list_ne _ _ _ _ _ _ hty (by simp)] at h
          exact okPair_reg h
        | cons a tl =>
          cases tl with
          | nil =>
            rw [dispatch_list_one _ _ _ _ _ _ hty] at h
            exact ih env pre _ a c reg s rg h
          | cons b tl2 =>
            rw [dispatch_list_ne _ _ _ _ _ _ hty (by simp)] at h
            exact okPair_reg h
      | str st =>
        by_cases h1 : st = "any"
        · subst h1
          rw [dispatch_any _ _ _ _ _ hty] at h
          exact okPair_reg h
        by_cases h2 : st = "boolean"
        · subst h2
          rw [dispatch_boolean _ _ _ _ _ hty] at h
          exact okPair_reg h
        by_cases h3 : st = "integer"
        · subst h3
          rw [dispatch_integer _ _ _ _ _ hty] at h
          exact okPair_reg h
        by_cases h4 : st = "number"
        · subst h4
          rw [dispatch_number _ _ _ _ _ hty] at h
          exact okPair_reg h
        by_cases h5 : st = "string"
        · subst h5
          rw [dispatch_string _ _ _ _ _ hty] at h
          exact okPair_reg h
        by_cases h6 : st = "array"
        · subst h6
          rw [dispatch_array_none _ _ _ _ _ hty rfl] at h
          exact Except.noConfusion h
        by_cases h7 : st = "object"
        · subst h7
          rw [dispatch_obj_empty_none _ _ _ _ _ hty rfl rfl] at h
          exact okPair_reg h
        · rw [dispatch_str_unknown _ _ _ _ _ _ hty h1 h2 h3 h4 h5 h6 h7] at h
          exact Except.noConfusion h

/-! Final helpers for the claim theorems. -/

theorem fileLoad_eq {env : Env} {p : String} {doc : JVal} (uf : Nat) (s : JsonSchema)
    (henv : env p = some doc) : fileLoad uf env p s = unmarshalInto uf s doc := by
  unfold fileLoad
  rw [henv]

theorem resolveStep_chain (uf : Nat) (env : Env) (lref : JsonSchema → Except Err JsonSchema)
    (sfi : JVal → Except Err (Option JsonSchema)) (js js0 : JsonSchema)
    (hr : js.ref ≠ "") (hload : fileLoad uf env js.ref (js.setRef "") = .ok js0)
    (h0 : js0.ref ≠ "") :
    resolveStep uf env lref sfi js = .error .chainRef := by
  unfold resolveStep
  rw [if_neg hr]
  simp only [hload]
  rw [if_neg h0]

theorem sfiObj_ok_some {sfi : JVal → Except Err (Option JsonSchema)}
    {lref : JsonSchema → Except Err JsonSchema} {fs : List (String × JVal)}
    {x : Option JsonSchema} (h : sfiObj sfi lref fs = .ok x) : ∃ o, x = some o := by
  unfold sfiObj at h
  split at h
  · exact Except.noConfusion h
  · split at h
    · exact Except.noConfusion h
    · split at h
      · exact Except.noConfusion h
      · split at h
        · exact Except.noConfusion h
        · split at h
          · exact Except.noConfusion h
          · split at h
            · exact Except.noConfusion h
            · split at h
              · exact Except.noConfusion h
              · next out heq =>
                cases h
                exact ⟨out, rfl⟩

/-! The claims. -/

/-- C3 (amended): for a node whose resolved type is a list with exactly one
element, synthesis recurses on a fresh node carrying only the enclosing
node's title and that single element as type (items, properties and
additionalProperties are dropped, as `freshNode` shows); a list with zero
or more than one elements synthesizes to the universal type. -/
theorem claim3_typelist (n : Nat) (env : Env) (pre : String) (js : JsonSchema) (c : Bool)
    (reg : Reg) (r : JsonSchema) (ts : List JVal)
    (hres : loadRefM (n+1) env js = .ok r) (ht : r.typeJ = .arr ts) :
    (∀ t0, ts = [t0] → goType (n+1) env pre js c reg =
       goType n env pre (freshNode r.title t0) c reg) ∧
    (ts.length ≠ 1 → goType (n+1) env pre js c reg = .ok ("interface\x7b\x7d", reg)) := by
  constructor
  · intro t0 h1
    subst h1
    rw [goType_resolved hres, dispatch_list_one _ _ _ _ _ _ ht]
  · intro hne
    rw [goType_resolved hres, dispatch_list_ne _ _ _ _ _ _ ht hne]

/-- C3 counterexample: a node with type list `["object"]` and a property
`a` synthesizes to the universal type (the property is dropped), while the
same node with plain type `"object"` synthesizes to a one-field struct —
so the claim that all other node content stays intact is false. -/
theorem claim3_counterexample :
    goType 6 env0 "Json" c3schema true [] = .ok ("interface\x7b\x7d", []) ∧
    goType 6 env0 "Json" c3schemaB true [] =
      .ok ("struct \x7b\nA string `json:\"a\"`\n\x7d", []) ∧
    ("interface\x7b\x7d" : String) ≠ "struct \x7b\nA string `json:\"a\"`\n\x7d" :=
  ⟨rfl, rfl, by decide⟩

/-- Witness for C3's amended theorem at `c3schema`. -/
theorem claim3_witness :
    loadRefM 6 env0 c3schema = .ok c3schema ∧
    goType 6 env0 "Json" c3schema true [] =
      goType 5 env0 "Json" (freshNode c3schema.title (.str "object")) true [] ∧
    goType 5 env0 "Json" (freshNode c3schema.title (.str "object")) true [] =
      .ok ("interface\x7b\x7d", []) :=
  ⟨rfl,
    (claim3_typelist 5 env0 "Json" c3schema true [] c3schema [.str "object"] rfl rfl).1
      (.str "object") rfl,
    rfl⟩

/-- C6: reference resolution is single-level with the ref consumed exactly
once: every successful resolution leaves the node with an empty ref, and
when the referenced document itself carries a non-empty `$ref`, resolution
fails with the chain error (a Resolution Error) instead of following the
chain. -/
theorem claim6_ref_consumed_once :
    (∀ (n : Nat) (env : Env) (js s' : JsonSchema),
       loadRefM n env js = .ok s' → s'.ref = "") ∧
    (∀ (n : Nat) (env : Env) (js js0 : JsonSchema) (doc : JVal),
       js.ref ≠ "" → env js.ref = some doc →
       unmarshalInto (n+1) (js.setRef "") doc = .ok js0 → js0.ref ≠ "" →
       loadRefM (n+1) env js = .error .chainRef) := by
  constructor
  · intro n env js s' h
    exact (resolved_shape h).1
  · intro n env js js0 doc hr henv hunm h0
    rw [show loadRefM (n+1) env js =
      resolveStep (n+1) env (loadRefM n env) (sfiFueled n (loadRefM n env)) js from rfl]
    refine resolveStep_chain (n+1) env _ _ js js0 hr ?_ h0
    rw [fileLoad_eq (n+1) (js.setRef "") henv]
    exact hunm

/-- Witness for C6: a one-hop ref resolves with the ref consumed, and a
two-hop ref chain fails with the chain error. -/
theorem claim6_witness :
    refNodeBRes.ref = "" ∧ loadRefM 5 envChain refNodeA = .error .chainRef :=
  ⟨claim6_ref_consumed_once.1 5 envB refNodeB refNodeBRes rfl,
   claim6_ref_consumed_once.2 4 envChain refNodeA refNodeAmid
     (.obj [("$ref", .str "b.json")]) (by decide) rfl rfl (by decide)⟩

/-- C9 (amended): for a resolved node of type `"array"`, synthesis fails
with a Schema Error at the node itself exactly when `items` is absent
(an items supplied via `extends` counts as present); when `items` is
present the node synthesizes to the sequence-of type of the items' own
synthesis, propagating any error that synthesis raises. -/
theorem claim9_array_items (n : Nat) (env : Env) (pre : String) (js : JsonSchema) (c : Bool)
    (reg : Reg) (r : JsonSchema)
    (hres : loadRefM (n+1) env js = .ok r) (ht : r.typeJ = .str "array") :
    (r.items = none → goType (n+1) env pre js c reg = .error .schemaError) ∧
    (∀ i, r.items = some i →
       goType (n+1) env pre js c reg =
         (match goType n env pre i true reg with
          | .error e => .error e
          | .ok (ti, reg1) => .ok ("[]" ++ ti, reg1))) := by
  constructor
  · intro hi
    rw [goType_resolved hres, dispatch_array_none _ _ _ _ _ ht hi]
  · intro i hi
    rw [goType_resolved hres, dispatch_array_some _ _ _ _ _ i ht hi]

/-- C9 counterexample: an `array` node whose `items` is itself an `array`
node with no items fails with a Schema Error even though its own `items`
is present after resolution — refuting the claimed "if and only if". -/
theorem claim9_counterexample :
    loadRefM 6 env0 c9node = .ok c9res ∧ c9res.items = some c9inner ∧
    goType 6 env0 "Json" c9node true [] = .error .schemaError :=
  ⟨rfl, rfl, rfl⟩

/-- Witness for C9's amended theorem: an `array` node whose items comes
from `extends` synthesizes to a sequence of 64-bit integers. -/
theorem claim9_witness :
    loadRefM 5 env0 arrExt = .ok arrExtRes ∧
    goType 5 env0 "Json" arrExt true [] =
      (match goType 4 env0 "Json" intS true [] with
       | .error e => .error e
       | .ok (ti, reg1) => .ok ("[]" ++ ti, reg1)) ∧
    goType 5 env0 "Json" arrExt true [] = .ok ("[]int64", []) :=
  ⟨rfl,
   (claim9_array_items 4 env0 "Json" arrExt true [] arrExtRes rfl rfl).2 intS rfl,
   rfl⟩

/-- C10 (amended): the registry write for a node's own name happens only in
the composite branch: scalar-keyword nodes and type-list nodes leave the
registry unchanged on success; array nodes and object nodes with empty
properties never register their own prefixed title — any registry change
they cause is exactly the one made by the recursive synthesis of the child
node (items / additionalProperties). -/
theorem claim10_registry_frame (n : Nat) (env : Env) (pre : String) (js : JsonSchema)
    (c : Bool) (reg : Reg) (r : JsonSchema)
    (hres : loadRefM (n+1) env js = .ok r) :
    ((r.typeJ = .str "any" ∨ r.typeJ = .str "boolean" ∨ r.typeJ = .str "integer" ∨
      r.typeJ = .str "number" ∨ r.typeJ = .str "string") →
       ∃ t, goType (n+1) env pre js c reg = .ok (t, reg)) ∧
    (∀ ts s rg, r.typeJ = .arr ts →
       goType (n+1) env pre js c reg = .ok (s, rg) → rg = reg) ∧
    (∀ i, r.typeJ = .str "array" → r.items = some i →
       goType (n+1) env pre js c reg =
         (match goType n env pre i true reg with
          | .error e => .error e
          | .ok (ti, reg1) => .ok ("[]" ++ ti, reg1))) ∧
    (∀ ap, r.typeJ = .str "object" → r.props.getD [] = [] → r.addProps = some ap →
       goType (n+1) env pre js c reg =
         (match goType n env pre ap true reg with
          | .error e => .error e
          | .ok (ta, reg1) => .ok ("map[string]" ++ ta, reg1))) ∧
    (r.typeJ = .str "object" → r.props.getD [] = [] → r.addProps = none →
       goType (n+1) env pre js c reg = .ok ("interface\x7b\x7d", reg)) := by
  refine ⟨?_, ?_, ?_, ?_, ?_⟩
  · intro hsc
    rcases hsc with h | h | h | h | h
    · exact ⟨_, by rw [goType_resolved hres, dispatch_any _ _ _ _ _ h]⟩
    · exact ⟨_, by rw [goType_resolved hres, dispatch_boolean _ _ _ _ _ h]⟩
    · exact ⟨_, by rw [goType_resolved hres, dispatch_integer _ _ _ _ _ h]⟩
    · exact ⟨_, by rw [goType_resolved hres, dispatch_number _ _ _ _ _ h]⟩
    · exact ⟨_, by rw [goType_resolved hres, dispatch_string _ _ _ _ _ h]⟩
  · intro ts s rg ht hgo
    rw [goType_resolved hres] at hgo
    cases ts with
    | nil =>
      rw [dispatch_list_ne _ _ _ _ _ _ ht (by simp)] at hgo
      exact okPair_reg hgo
    | cons a tl =>
      cases tl with
      | nil =>
        rw [dispatch_list_one _ _ _ _ _ _ ht] at hgo
        exact goType_fresh_reg n env pre r.title a c reg s rg hgo
      | cons b tl2 =>
        rw [dispatch_list_ne _ _ _ _ _ _ ht (by simp)] at hgo
        exact okPair_reg hgo
  · intro i ht hi
    rw [goType_resolved hres, dispatch_array_some _ _ _ _ _ i ht hi]
  · intro ap ht hp ha
    rw [goType_resolved hres, dispatch_obj_empty_some _ _ _ _ _ ap ht hp ha]
  · intro ht hp ha
    rw [goType_resolved hres, dispatch_obj_empty_none _ _ _ _ _ ht hp ha]

/-- C10 counterexample: an `array` node whose items is a titled object
does change the registry (the item type is registered while the array node
is synthesized) — refuting "synthesis of an array node leaves the registry
unchanged". -/
theorem claim10_counterexample :
    c10node.typeJ = .str "array" ∧
    goType 6 env0 "Json" c10node true [] =
      .ok ("[]JsonT", [("JsonT", "struct \x7b\nX string `json:\"x\"`\n\x7d")]) ∧
    ([("JsonT", "struct \x7b\nX string `json:\"x\"`\n\x7d")] : Reg) ≠ ([] : Reg) :=
  ⟨rfl, rfl, by decide⟩

/-- Witness for C10's amended theorem: a scalar node leaves the registry
unchanged, and an empty object with additionalProperties synthesizes
through its child. -/
theorem claim10_witness :
    (∃ t, goType 3 env0 "Json" strS true [] = .ok (t, [])) ∧
    goType 5 env0 "Json" mapNode true [] =
      (match goType 4 env0 "Json" apRes true [] with
       | .error e => .error e
       | .ok (ta, reg1) => .ok ("map[string]" ++ ta, reg1)) :=
  ⟨(claim10_registry_frame 2 env0 "Json" strS true [] apRes rfl).1
      (Or.inr (Or.inr (Or.inr (Or.inr rfl)))),
   (claim10_registry_frame 4 env0 "Json" mapNode true [] mapNodeRes rfl).2.2.2.1 apRes
      rfl rfl rfl⟩

/-- Witness for C7 at a concrete ref node: resolving once gives
`refNodeBRes`, and resolving that again yields it unchanged. -/
theorem claim7_witness :
    loadRefM 5 envB refNodeB = .ok refNodeBRes ∧
    loadRefM 5 envB refNodeBRes = .ok refNodeBRes :=
  ⟨rfl, loadRef_idem 5 envB refNodeB refNodeBRes rfl⟩

/-- C5: the `extends` merge is child-over-parent: after resolving a node
whose `extends` is present (and whose own ref is already consumed), title,
type and items are taken from the node itself when set and from the
resolved extended node when unset, every property entry of the node itself
is preserved unchanged, and disjoint property keys of the extended node
are added. -/
theorem claim5_extends_merge (n : Nat) (env : Env) (js e s' : JsonSchema)
    (h0 : js.ref = "") (he : js.extendsF = some e)
    (hok : loadRefM (n+1) env js = .ok s') :
    ∃ e', loadRefM n env e = .ok e' ∧
      (js.title ≠ "" → s'.title = js.title) ∧
      (js.title = "" → s'.title = e'.title) ∧
      (isNullJ js.typeJ = false → s'.typeJ = js.typeJ) ∧
      (isNullJ js.typeJ = true → s'.typeJ = e'.typeJ) ∧
      (∀ x, js.items = some x → s'.items = some x) ∧
      (js.items = none → s'.items = e'.items) ∧
      (∀ k v, lookupE (js.props.getD []) k = some v →
         lookupE (s'.props.getD []) k = some v) ∧
      (∀ k v, lookupE (js.props.getD []) k = none →
         lookupE (e'.props.getD []) k = some v →
         lookupE (s'.props.getD []) k = some v) := by
  obtain ⟨js0, ap, heq, href, hsfi, htail⟩ := loadRefM_ok_anatomy hok
  rw [if_pos h0] at heq
  cases heq
  have hext2 : ((normProps js).setAddProps ap).extendsF = some e := by
    rw [setAddProps_extendsF, normProps_extendsF]
    exact he
  rcases resolveTail_ok htail with ⟨hnone, _⟩ | ⟨e1, e', hsome, hres, rfl⟩
  · rw [hext2] at hnone
    exact Option.noConfusion hnone
  · rw [hext2] at hsome
    cases hsome
    have hprops : ((normProps js).setAddProps ap).props.getD [] = js.props.getD [] := by
      rw [setAddProps_props, normProps_props_getD]
    refine ⟨e', hres, ?_, ?_, ?_, ?_, ?_, ?_, ?_, ?_⟩
    · intro hti
      rw [mergeExtends_title, setAddProps_title, normProps_title, if_neg hti]
    · intro hti
      rw [mergeExtends_title, setAddProps_title, normProps_title, if_pos hti]
    · intro hnull
      rw [mergeExtends_typeJ, setAddProps_typeJ, normProps_typeJ, hnull]
      rfl
    · intro hnull
      rw [mergeExtends_typeJ, setAddProps_typeJ, normProps_typeJ, hnull]
      rfl
    · intro x hx
      rw [mergeExtends_items, setAddProps_items, normProps_items, hx]
      rfl
    · intro hx
      rw [mergeExtends_items, setAddProps_items, normProps_items, hx]
      rfl
    · intro k v hv
      rw [mergeExtends_props]
      rw [Option.getD_some, hprops]
      exact lookupE_mergeProps_some (hprops ▸ hv) _
    · intro k v hnone2 hv
      rw [mergeExtends_props, Option.getD_some, hprops]
      exact lookupE_mergeProps_absent (hprops ▸ hnone2) hv

/-- Witness for C5 at `childN extends baseN`: the resolved child keeps its
own property `b`, inherits `a`, and takes title and type from the base. -/
theorem claim5_witness :
    childNres.title = "Base" ∧ childNres.typeJ = .str "object" ∧
    lookupE (childNres.props.getD []) "b" = some (some strS) ∧
    lookupE (childNres.props.getD []) "a" = some (some intS) := by
  obtain ⟨e', hres, h1, h2, h3, h4, h5, h6, h7, h8⟩ :=
    claim5_extends_merge 4 env0 childN baseN childNres rfl rfl rfl
  have he' : baseN = e' :=
    Except.ok.inj ((show loadRefM 4 env0 baseN = .ok baseN from rfl).symm.trans hres)
  cases he'
  exact ⟨h2 rfl, h4 rfl, h7 "b" (some strS) rfl, h8 "a" (some intS) rfl rfl⟩

/-- C8: for a resolved object node with empty properties, an
additionalProperties that is an object description synthesizes to a
mapping from string to the synthesized type of that nested node, while an
absent or boolean additionalProperties (normalized to no node) synthesizes
to the universal type. -/
theorem claim8_additional_props (n : Nat) (env : Env) (pre : String) (js : JsonSchema)
    (c : Bool) (reg : Reg) (r : JsonSchema)
    (hres : loadRefM (n+1) env js = .ok r) (ht : r.typeJ = .str "object")
    (hp : r.props.getD [] = []) :
    (∀ fs, r.addI = .obj fs → ∃ ap, r.addProps = some ap ∧
       goType (n+1) env pre js c reg =
         (match goType n env pre ap true reg with
          | .error e => .error e
          | .ok (ta, reg1) => .ok ("map[string]" ++ ta, reg1))) ∧
    ((r.addI = .null ∨ ∃ b, r.addI = .jbool b) →
       r.addProps = none ∧ goType (n+1) env pre js c reg = .ok ("interface\x7b\x7d", reg)) := by
  have hsfi := resolved_sfi hres
  constructor
  · intro fs hobj
    rw [hobj] at hsfi
    cases n with
    | zero => simp [sfiFueled] at hsfi
    | succ m =>
      rw [show sfiFueled (m+1) (loadRefM (m+1) env) (JVal.obj fs) =
        sfiObj (sfiFueled m (loadRefM (m+1) env)) (loadRefM (m+1) env) fs from rfl] at hsfi
      obtain ⟨o, ho⟩ := sfiObj_ok_some hsfi
      refine ⟨o, ho, ?_⟩
      rw [goType_resolved hres, dispatch_obj_empty_some _ _ _ _ _ o ht hp ho]
  · intro hno
    cases n with
    | zero =>
      simp [sfiFueled] at hsfi
    | succ m =>
      have hnone : r.addProps = none := by
        rcases hno with h9 | ⟨b, h9⟩
        · rw [h9] at hsfi
          exact (Except.ok.inj hsfi).symm
        · rw [h9] at hsfi
          exact (Except.ok.inj hsfi).symm
      refine ⟨hnone, ?_⟩
      rw [goType_resolved hres, dispatch_obj_empty_none _ _ _ _ _ ht hp hnone]

/-- Witness for C8 at `mapNode`: an object with no properties and
`additionalProperties: {type: "string"}` synthesizes to a string-to-string
mapping. -/
theorem claim8_witness :
    goType 5 env0 "Json" mapNode true [] = .ok ("map[string]string", []) ∧
    mapNodeRes.addProps = some apRes := by
  obtain ⟨ap, hap, hgo⟩ := (claim8_additional_props 4 env0 "Json" mapNode true [] mapNodeRes
    rfl rfl rfl).1 [("type", .str "string")] rfl
  have hap2 : apRes = ap :=
    Option.some.inj ((show mapNodeRes.addProps = some apRes from rfl).symm.trans hap)
  cases hap2
  refine ⟨?_, hap⟩
  rw [hgo]
  rfl

/-- C1 (amended): named-type registration is last-wins — an object node
whose synthesized name is non-empty always (re)writes the registry entry
for its prefixed name with its own body (`setEntry`: a later registration
under the same name replaces the earlier body), and when the synthesized
name is empty (in particular an empty title) the node is never registered
and its inline body is returned even when collapsing is requested. -/
theorem claim1_registration_last_wins (n : Nat) (env : Env) (pre : String) (js : JsonSchema)
    (c : Bool) (reg : Reg) (r : JsonSchema) (p0 : String × Option JsonSchema) (pl0 : PropMap)
    (fields : String) (reg1 : Reg)
    (hres : loadRefM (n+1) env js = .ok r) (ht : r.typeJ = .str "object")
    (hp : r.props.getD [] = p0 :: pl0)
    (hf : structFields (fun ch rg => goType n env pre ch true rg) (p0 :: pl0)
        (sortStrings ((p0 :: pl0).map Prod.fst)) reg = .ok (fields, reg1)) :
    (Capitalize r.title = "" →
       goType (n+1) env pre js c reg = .ok ("struct \x7b\n" ++ fields ++ "\x7d", reg1)) ∧
    (Capitalize r.title ≠ "" →
       goType (n+1) env pre js c reg =
         .ok ((if c then pre ++ Capitalize r.title else "struct \x7b\n" ++ fields ++ "\x7d"),
           setEntry reg1 (pre ++ Capitalize r.title) ("struct \x7b\n" ++ fields ++ "\x7d")) ∧
       lookupE (setEntry reg1 (pre ++ Capitalize r.title)
           ("struct \x7b\n" ++ fields ++ "\x7d")) (pre ++ Capitalize r.title) =
         some ("struct \x7b\n" ++ fields ++ "\x7d")) := by
  constructor
  · intro hname
    rw [goType_resolved hres, dispatch_obj_struct _ _ _ _ _ p0 pl0 ht hp]
    simp only [hf]
    rw [if_pos hname]
  · intro hname
    refine ⟨?_, lookupE_setEntry_self _ _ _⟩
    rw [goType_resolved hres, dispatch_obj_struct _ _ _ _ _ p0 pl0 ht hp]
    simp only [hf]
    rw [if_neg hname]

/-- C1 counterexample: a run in which the name `JsonT` is registered twice
with different bodies ends with the registry holding the *second* body —
the first registration does not win and the entry is not unchanged. -/
theorem claim1_counterexample :
    goType 6 env0 "Json" c1root true [] =
      .ok ("struct \x7b\nA JsonT `json:\"a\"`\nB JsonT `json:\"b\"`\n\x7d",
        [("JsonT", "struct \x7b\nY int64 `json:\"y\"`\n\x7d")]) ∧
    ("struct \x7b\nY int64 `json:\"y\"`\n\x7d" : String) ≠
      "struct \x7b\nX string `json:\"x\"`\n\x7d" :=
  ⟨rfl, by decide⟩

/-- Witness for C1's amended theorem: synthesizing `tNodeX` against a
registry that already holds an entry for `JsonT` overwrites that entry. -/
theorem claim1_witness :
    loadRefM 5 env0 tNodeX = .ok tNodeX ∧
    goType 5 env0 "Json" tNodeX true [("JsonT", "old")] =
      .ok ("JsonT", [("JsonT", "struct \x7b\nX string `json:\"x\"`\n\x7d")]) ∧
    lookupE [("JsonT", "struct \x7b\nX string `json:\"x\"`\n\x7d")] "JsonT" =
      some "struct \x7b\nX string `json:\"x\"`\n\x7d" := by
  have h := (claim1_registration_last_wins 4 env0 "Json" tNodeX true [("JsonT", "old")]
    tNodeX ("x", some strS) [] "X string `json:\"x\"`\n" [("JsonT", "old")]
    rfl rfl rfl rfl).2 (by decide)
  exact ⟨rfl, h.1, h.2⟩

/-- C2 (amended): the driver synthesizes the top-level root with
`collapseNamed = true`, the same as every nested context; consequently the
computed (and then discarded) root type expression of a titled root object
is the reference to its registered name, not its full inline body, and
the body reaches the output only through the registry drain. -/
theorem claim2_root_collapse (n : Nat) (env : Env) (path pre : String) (doc : JVal)
    (schema r : JsonSchema) (p0 : String × Option JsonSchema) (pl0 : PropMap)
    (fields : String) (reg1 : Reg)
    (h1 : env path = some doc)
    (h2 : unmarshalInto (n+1) emptySchema doc = .ok schema)
    (hres : loadRefM (n+1) env schema = .ok r)
    (ht : r.typeJ = .str "object") (hp : r.props.getD [] = p0 :: pl0)
    (hname : Capitalize r.title ≠ "")
    (hf : structFields (fun ch rg => goType n env pre ch true rg) (p0 :: pl0)
        (sortStrings ((p0 :: pl0).map Prod.fst)) [] = .ok (fields, reg1)) :
    mainModel (n+1) env path pre =
      .ok (pre ++ Capitalize r.title,
        drain (setEntry reg1 (pre ++ Capitalize r.title)
          ("struct \x7b\n" ++ fields ++ "\x7d"))) := by
  have hgo : goType (n+1) env pre schema true [] =
      .ok (pre ++ Capitalize r.title,
        setEntry reg1 (pre ++ Capitalize r.title) ("struct \x7b\n" ++ fields ++ "\x7d")) := by
    rw [goType_resolved hres, dispatch_obj_struct _ _ _ _ _ p0 pl0 ht hp]
    simp only [hf]
    rw [if_neg hname]
    simp
  unfold mainModel
  rw [fileLoad_eq (n+1) emptySchema h1]
  simp only [h2, hgo]

/-- C2 counterexample: for the titled root document `fooDoc` the computed
root expression is the collapsed reference `"JsonFoo"`, not the full
inline struct body — the root is synthesized with `collapse = true`. -/
theorem claim2_counterexample :
    mainModel 8 env1 "root.json" "Json" =
      .ok ("JsonFoo", [("JsonFoo", "struct \x7b\nA string `json:\"a\"`\n\x7d")]) ∧
    ("JsonFoo" : String) ≠ "struct \x7b\nA string `json:\"a\"`\n\x7d" :=
  ⟨rfl, by decide⟩

/-- Witness for C2's amended theorem at the `fooDoc` root. -/
theorem claim2_witness :
    mainModel 8 env1 "root.json" "Json" =
      .ok ("JsonFoo",
        drain (setEntry [] "JsonFoo" "struct \x7b\nA string `json:\"a\"`\n\x7d")) :=
  claim2_root_collapse 7 env1 "root.json" "Json" fooDoc fooSchema fooSchema
    ("a", some strS) [] "A string `json:\"a\"`\n" [] rfl rfl rfl rfl rfl (by decide) rfl

/-- C4: the composite branch lists its fields in ascending lexicographic
order of the original property keys — the emitted key sequence is sorted
and a permutation of the source keys, and permuting the input property
list (same title, nodup keys) leaves the synthesized output unchanged;
field names are built by `Capitalize` and tags carry the original key (as
`structFields` shows); and the final registry drain emits declarations in
ascending name order. -/
theorem claim4_sorted_fields (n : Nat) (env : Env) (pre : String) (js : JsonSchema)
    (c : Bool) (reg : Reg) (r : JsonSchema) (p0 : String × Option JsonSchema) (pl0 : PropMap)
    (js' r' : JsonSchema) (p0' : String × Option JsonSchema) (pl0' : PropMap)
    (hres : loadRefM (n+1) env js = .ok r) (ht : r.typeJ = .str "object")
    (hp : r.props.getD [] = p0 :: pl0)
    (hres' : loadRefM (n+1) env js' = .ok r') (ht' : r'.typeJ = .str "object")
    (hp' : r'.props.getD [] = p0' :: pl0')
    (hperm : (p0' :: pl0').Perm (p0 :: pl0))
    (hnd : ((p0 :: pl0).map Prod.fst).Nodup)
    (hti : r'.title = r.title) :
    goType (n+1) env pre js c reg =
      (match structFields (fun ch rg => goType n env pre ch true rg) (p0 :: pl0)
          (sortStrings ((p0 :: pl0).map Prod.fst)) reg with
       | .error e => .error e
       | .ok (fields, reg1) =>
         if Capitalize r.title = "" then .ok ("struct \x7b\n" ++ fields ++ "\x7d", reg1)
         else
           .ok (if c then pre ++ Capitalize r.title else "struct \x7b\n" ++ fields ++ "\x7d",
             setEntry reg1 (pre ++ Capitalize r.title)
               ("struct \x7b\n" ++ fields ++ "\x7d"))) ∧
    List.Sorted leS (sortStrings ((p0 :: pl0).map Prod.fst)) ∧
    (sortStrings ((p0 :: pl0).map Prod.fst)).Perm ((p0 :: pl0).map Prod.fst) ∧
    goType (n+1) env pre js' c reg = goType (n+1) env pre js c reg ∧
    (∀ rg : Reg, List.Sorted leS ((drain rg).map Prod.fst)) := by
  refine ⟨?_, sortStrings_sorted _, sortStrings_perm _, ?_, fun rg => drain_names_sorted rg⟩
  · rw [goType_resolved hres, dispatch_obj_struct _ _ _ _ _ p0 pl0 ht hp]
  · rw [goType_resolved hres, dispatch_obj_struct _ _ _ _ _ p0 pl0 ht hp,
      goType_resolved hres', dispatch_obj_struct _ _ _ _ _ p0' pl0' ht' hp', hti]
    have hkeys : sortStrings ((p0' :: pl0').map Prod.fst) =
        sortStrings ((p0 :: pl0).map Prod.fst) :=
      sortStrings_eq_of_perm (hperm.map Prod.fst)
    rw [hkeys]
    have hlk : ∀ k, lookupE (p0' :: pl0') k = lookupE (p0 :: pl0) k :=
      fun k => lookupE_perm hperm (((hperm.map Prod.fst).nodup_iff).mpr hnd) k
    rw [structFields_congr _ hlk _ reg]

/-- Witness for C4 at a two-property object given in unsorted order:
permuting the input property list leaves the output unchanged, the field
keys are emitted in ascending order, and the synthesized struct lists `a`
before `b`. -/
theorem claim4_witness :
    goType 3 env0 "Json" js4' true [] = goType 3 env0 "Json" js4 true [] ∧
    List.Sorted leS
      (sortStrings (([("b", some strS), ("a", some intS)] : PropMap).map Prod.fst)) ∧
    goType 3 env0 "Json" js4 true [] =
      .ok ("JsonFoo",
        [("JsonFoo", "struct \x7b\nA int64 `json:\"a\"`\nB string `json:\"b\"`\n\x7d")]) :=
  ⟨(claim4_sorted_fields 2 env0 "Json" js4 true [] js4 ("b", some strS) [("a", some intS)]
      js4' js4' ("a", some intS) [("b", some strS)] rfl rfl rfl rfl rfl rfl
      (List.Perm.swap ("b", some strS) ("a", some intS) []) (by decide) rfl).2.2.2.1,
   (claim4_sorted_fields 2 env0 "Json" js4 true [] js4 ("b", some strS) [("a", some intS)]
      js4' js4' ("a", some intS) [("b", some strS)] rfl rfl rfl rfl rfl rfl
      (List.Perm.swap ("b", some strS) ("a", some intS) []) (by decide) rfl).2.1,
   rfl⟩
